import Mathlib

/-!
Shallow embedding of `src/knockout-validated.js`.

The library installs `ko.validatedObservable(initValue)`, a factory returning a
`ko.computed` wrapper `_o` around a private `ko.observable()` `_value`, with a
private undefined-initialized variable `_lastValue` and a private array
`_validationChain`.  The public surface is `read` / `write` (through the
computed), `addValidator`, `removeValidator` and `hasChanged`.

Modelling choices:
* JavaScript `undefined` is modelled as `none`, so wrapped values live in
  `Option α`.
* Validator functions are compared by reference identity in the source
  (`Array.prototype.indexOf` uses strict equality on function objects), so a
  validator is modelled as a reference id `Nat`; the behaviour of the function
  behind an id is given by an environment `env : Nat → Option α → Bool`
  supplied to `write` / `runValidationChain`.
* Arguments to `addValidator` / `removeValidator` are modelled by `JSArg`:
  either a function reference or any non-function JavaScript value
  (`typeof arg !== 'function'`, e.g. `null`).
* A JavaScript `throw` is modelled by an `OpResult` carrying the thrown string
  next to the (unmodified, since the throw happens before any mutation) state.
* The external knockout observable contract is modelled as the source uses it:
  `_value(newValue)` notifies observers with the newly written value, and
  `_value.valueHasMutated()` notifies observers with the current, unchanged
  value.  `write` therefore returns the list of notifications it emits.
-/

namespace KoValidated

/-- A JavaScript value passed to `addValidator` / `removeValidator`: either a
function object (identified by its reference id) or any non-function value
such as `null`, for which `typeof arg !== 'function'` holds. -/
inductive JSArg where
  | func (id : Nat)
  | nonFunc
deriving DecidableEq

/-- The private state captured by one `ko.validatedObservable` closure:
`_value` (the wrapped `ko.observable()`), `_lastValue` and `_validationChain`.
`none` models JavaScript `undefined`. -/
structure Cell (α : Type) where
  _value : Option α
  _lastValue : Option α
  _validationChain : List Nat
deriving DecidableEq

/-- `ko.validatedObservable(initValue)`: the source declares the parameter
`initValue` but never stores it anywhere — `_value` is created as
`ko.observable()` with no argument (hence undefined), `_lastValue` is an
uninitialized `var` (undefined), and `_validationChain` starts as `[]`. -/
def validatedObservable (α : Type) (initValue : α) : Cell α :=
  { _value := none, _lastValue := none, _validationChain := [] }

/-- The computed's `read`: returns `_value()`. -/
def read {α : Type} (c : Cell α) : Option α :=
  c._value

/-- `runValidationChain(newValue)`:
`_isValid = true; _index = 0;`
`while (_isValid && _index < chain.length) { _isValid = chain[_index](newValue); _index++ }`.
Returns the final `_isValid` together with the list of validator ids actually
invoked, in invocation order (the second component records the loop's calls so
that short-circuiting is observable in the model). -/
def runValidationChain {α : Type} (env : Nat → Option α → Bool)
    (newValue : Option α) : List Nat → Bool × List Nat
  | [] => (true, [])
  | id :: rest =>
    if env id newValue then
      let r := runValidationChain env newValue rest
      (r.1, id :: r.2)
    else
      (false, [id])

/-- The computed's `write(newValue)`:
`_lastValue = _value();` then if `runValidationChain(newValue)` then
`_value(newValue)` (committing and notifying observers of the new value) else
`_value.valueHasMutated()` (notifying observers of the unchanged value).
Returns the new state and the notifications emitted, in order. -/
def write {α : Type} (env : Nat → Option α → Bool) (c : Cell α)
    (newValue : Option α) : Cell α × List (Option α) :=
  let lastValue := c._value
  if (runValidationChain env newValue c._validationChain).1 then
    ({ c with _value := newValue, _lastValue := lastValue }, [newValue])
  else
    ({ c with _lastValue := lastValue }, [c._value])

/-- Result of a call to `addValidator` / `removeValidator`: `thrown = some msg`
models a JavaScript `throw msg` (which happens before any mutation, so `cell`
is the untouched state); `thrown = none` models the normal `return _o`, with
`cell` the state after the call. -/
structure OpResult (α : Type) where
  thrown : Option String
  cell : Cell α
deriving DecidableEq

/-- `_o.addValidator(validationFunct)`: throws if
`typeof validationFunct !== 'function'`; otherwise appends `validationFunct`
to `_validationChain` when `indexOf` says it is absent (`=== -1`, which in the
`Nat`-valued `List.indexOf` is `= length`), and returns `_o`. -/
def addValidator {α : Type} (c : Cell α) (validationFunct : JSArg) :
    OpResult α :=
  match validationFunct with
  | .nonFunc =>
    { thrown := some "Invalid argument for addValidator() - Argument 1 MUST be a function",
      cell := c }
  | .func id =>
    if c._validationChain.indexOf id = c._validationChain.length then
      { thrown := none,
        cell := { c with _validationChain := c._validationChain ++ [id] } }
    else
      { thrown := none, cell := c }

/-- `_o.removeValidator(validationFunct)`: throws if
`typeof validationFunct !== 'function'`; otherwise, when
`(_index = indexOf(validationFunct)) !== -1`, performs
`_validationChain.splice(_index, 1)` (= `eraseIdx` at that index), and
returns `_o`. -/
def removeValidator {α : Type} (c : Cell α) (validationFunct : JSArg) :
    OpResult α :=
  match validationFunct with
  | .nonFunc =>
    { thrown := some "Invalid argument for removeValidator() - Argument 1 MUST be a function",
      cell := c }
  | .func id =>
    let _index := c._validationChain.indexOf id
    if _index ≠ c._validationChain.length then
      { thrown := none,
        cell := { c with _validationChain := c._validationChain.eraseIdx _index } }
    else
      { thrown := none, cell := c }

/-- `_o.hasChanged()`: returns `_value() !== _lastValue`. -/
def hasChanged {α : Type} [DecidableEq α] (c : Cell α) : Bool :=
  decide (c._value ≠ c._lastValue)

/-! ### Concrete instances used by the witness theorems

`spyEnv` assigns behaviour to two function ids: validator `0` is
`function(v) { return v > 100; }` (the README example) and validator `1` is
`function(v) { return v <= 10; }`; every other id behaves as a constantly
false validator. -/

/-- Behaviour of the concrete validator functions used in witnesses. -/
def spyEnv : Nat → Option Nat → Bool
  | 0, some n => decide (100 < n)
  | 1, some n => decide (n ≤ 10)
  | _, _ => false

/-- The README scenario: `ko.validatedObservable(123)`, then
`addValidator(v > 100)`, then an accepted `write(123)` committing 123. -/
def c123 : Cell Nat :=
  (write spyEnv (addValidator (validatedObservable Nat 123) (JSArg.func 0)).cell
    (some 123)).1

/-- A cell with two registered validators, ids `[0, 1]`. -/
def c01cell : Cell Nat :=
  (addValidator (addValidator (validatedObservable Nat 0) (JSArg.func 0)).cell
    (JSArg.func 1)).cell

/-- A cell whose chain already contains validator `0`. -/
def c8cell : Cell Nat :=
  (addValidator (validatedObservable Nat 5) (JSArg.func 0)).cell

/-! ### Helper lemmas -/

/-- The chain accepts exactly when every validator in it accepts. -/
theorem runValidationChain_fst_true_iff {α : Type} (env : Nat → Option α → Bool)
    (v : Option α) (l : List Nat) :
    (runValidationChain env v l).1 = true ↔ ∀ id ∈ l, env id v = true := by
  induction l with
  | nil => simp [runValidationChain]
  | cons id rest ih =>
    by_cases he : env id v = true
    · simp [runValidationChain, he, ih]
    · simp [runValidationChain, he]

/-- The validators invoked by one run are an initial segment of the chain,
in chain order. -/
theorem runValidationChain_invoked_take {α : Type} (env : Nat → Option α → Bool)
    (v : Option α) (l : List Nat) :
    (runValidationChain env v l).2 =
      l.take (runValidationChain env v l).2.length := by
  induction l with
  | nil => rfl
  | cons id rest ih =>
    by_cases he : env id v = true
    · simp only [runValidationChain, he, if_true]
      simp only [List.length_cons, List.take_succ_cons]
      exact congrArg (id :: ·) ih
    · simp [runValidationChain, he]

/-- If the validator at position `i` rejects, the run invokes at most the
validators at positions `0..i`. -/
theorem runValidationChain_invoked_length_le {α : Type}
    (env : Nat → Option α → Bool) (v : Option α) :
    ∀ (l : List Nat) (i : Nat) (hi : i < l.length),
      env (l.get ⟨i, hi⟩) v = false →
      (runValidationChain env v l).2.length ≤ i + 1 := by
  intro l
  induction l with
  | nil => intro i hi _; exact absurd hi (by simp)
  | cons id rest ih =>
    intro i hi h
    by_cases he : env id v = true
    · cases i with
      | zero =>
        rw [show (id :: rest).get ⟨0, hi⟩ = id from rfl] at h
        rw [h] at he
        exact absurd he (by simp)
      | succ j =>
        have hj : j < rest.length := Nat.lt_of_succ_lt_succ hi
        have h' : env (rest.get ⟨j, hj⟩) v = false := h
        simp only [runValidationChain, he, if_true, List.length_cons]
        exact Nat.succ_le_succ (ih j hj h')
    · simp [runValidationChain, he]

/-- `splice` at the value's `indexOf` is `erase` of the first occurrence. -/
theorem eraseIdx_indexOf_eq_erase (l : List Nat) (a : Nat) :
    l.eraseIdx (l.indexOf a) = l.erase a := by
  induction l with
  | nil => rfl
  | cons b t ih =>
    by_cases h : b = a
    · subst h
      simp [List.indexOf_cons_self, List.erase_cons_head]
    · rw [List.indexOf_cons_ne _ h, List.erase_cons_tail]
      · simpa using ih
      · simpa using h

/-! ### Claims -/

/-- C1: the spec claims that a cell constructed with `v` has `current = v`
before any write (`ko.validatedObservable(123)` should satisfy
`read() === 123`).  The source declares the `initValue` parameter but never
stores it: `_value` is created as `ko.observable()` with no argument, so
`read()` returns `undefined` (`none`), not the construction argument.  This
theorem evaluates the embedded code at the failing input `123`. -/
theorem C1_initValue_ignored :
    read (validatedObservable Nat 123) = none ∧
    read (validatedObservable Nat 123) ≠ some 123 := by
  exact ⟨rfl, by decide⟩

/-- C2: if some validator in the chain rejects the candidate, `write` leaves
`current` unchanged (read still returns the prior committed value) and still
emits exactly one observer notification carrying the unchanged value. -/
theorem C2_reject_but_notify {α : Type} (env : Nat → Option α → Bool)
    (c : Cell α) (candidate : Option α)
    (h : ∃ id ∈ c._validationChain, env id candidate = false) :
    read (write env c candidate).1 = read c ∧
    (write env c candidate).2 = [read c] := by
  have hrun : (runValidationChain env candidate c._validationChain).1 = false := by
    rcases h with ⟨id, hmem, hfalse⟩
    by_contra hne
    have htrue : (runValidationChain env candidate c._validationChain).1 = true := by
      cases hb : (runValidationChain env candidate c._validationChain).1
      · exact absurd hb hne
      · rfl
    have := (runValidationChain_fst_true_iff env candidate c._validationChain).mp
      htrue id hmem
    rw [hfalse] at this
    exact absurd this (by simp)
  constructor
  · simp [write, read, hrun]
  · simp [write, read, hrun]

/-- C2 witness: the cell committed to `123` with validator `v > 100`
rejects `write(50)`: the value stays `123` and one notification with `123`
is emitted. -/
theorem C2_reject_but_notify_witness :
    (∃ id ∈ c123._validationChain, spyEnv id (some 50) = false) ∧
    read (write spyEnv c123 (some 50)).1 = read c123 ∧
    (write spyEnv c123 (some 50)).2 = [read c123] :=
  ⟨by decide, C2_reject_but_notify spyEnv c123 (some 50) (by decide)⟩

/-- C3: a cell with zero registered validators accepts every write; after the
call, `current` equals the candidate (the empty chain accepts vacuously). -/
theorem C3_vacuous_acceptance {α : Type} (env : Nat → Option α → Bool)
    (c : Cell α) (candidate : Option α) (h : c._validationChain = []) :
    read (write env c candidate).1 = candidate := by
  simp [write, read, h, runValidationChain]

/-- C3 witness: a freshly constructed cell has no validators and accepts
`write(7)`. -/
theorem C3_vacuous_acceptance_witness :
    (validatedObservable Nat 0)._validationChain = [] ∧
    read (write spyEnv (validatedObservable Nat 0) (some 7)).1 = some 7 :=
  ⟨rfl, C3_vacuous_acceptance spyEnv (validatedObservable Nat 0) (some 7) rfl⟩

/-- C4: the chain is evaluated in registration order, left to right, and
short-circuits: the validators invoked by a write are an initial segment of
the chain, and if the validator at position `i` rejects the candidate then at
most the validators at positions `0..i` are invoked — no validator after the
rejecting one runs. -/
theorem C4_short_circuit {α : Type} (env : Nat → Option α → Bool)
    (v : Option α) (c : Cell α) (i : Nat)
    (hi : i < c._validationChain.length)
    (h : env (c._validationChain.get ⟨i, hi⟩) v = false) :
    (runValidationChain env v c._validationChain).2.length ≤ i + 1 ∧
    (runValidationChain env v c._validationChain).2 =
      c._validationChain.take
        (runValidationChain env v c._validationChain).2.length :=
  ⟨runValidationChain_invoked_length_le env v c._validationChain i hi h,
   runValidationChain_invoked_take env v c._validationChain⟩

/-- C4 witness: with chain `[0, 1]` and candidate `50`, validator `0`
(`v > 100`) rejects at position `0`, only `[0]` is invoked, and validator `1`
is never invoked. -/
theorem C4_short_circuit_witness :
    spyEnv (c01cell._validationChain.get ⟨0, by decide⟩) (some 50) = false ∧
    (runValidationChain spyEnv (some 50) c01cell._validationChain).2.length ≤ 1 ∧
    (runValidationChain spyEnv (some 50) c01cell._validationChain).2 =
      c01cell._validationChain.take
        (runValidationChain spyEnv (some 50) c01cell._validationChain).2.length ∧
    (runValidationChain spyEnv (some 50) c01cell._validationChain).2 = [0] :=
  ⟨by decide,
   (C4_short_circuit spyEnv (some 50) c01cell 0 (by decide) (by decide)).1,
   (C4_short_circuit spyEnv (some 50) c01cell 0 (by decide) (by decide)).2,
   by decide⟩

/-- `addValidator` touches only `_validationChain`: `_value` and `_lastValue`
are untouched whether it throws, appends or no-ops. -/
theorem addValidator_preserves_values {α : Type} (c : Cell α) (a : JSArg) :
    ((addValidator c a).cell)._value = c._value ∧
    ((addValidator c a).cell)._lastValue = c._lastValue := by
  cases a with
  | nonFunc => exact ⟨rfl, rfl⟩
  | func g =>
    by_cases hidx : c._validationChain.indexOf g = c._validationChain.length
    · simp [addValidator, hidx]
    · simp [addValidator, hidx]

/-- `removeValidator` touches only `_validationChain`. -/
theorem removeValidator_preserves_values {α : Type} (c : Cell α) (a : JSArg) :
    ((removeValidator c a).cell)._value = c._value ∧
    ((removeValidator c a).cell)._lastValue = c._lastValue := by
  cases a with
  | nonFunc => exact ⟨rfl, rfl⟩
  | func g =>
    by_cases hidx : c._validationChain.indexOf g = c._validationChain.length
    · simp [removeValidator, hidx]
    · simp [removeValidator, hidx]

/-- `write` never touches `_validationChain`, accepted or rejected. -/
theorem write_preserves_chain {α : Type} (env : Nat → Option α → Bool)
    (c : Cell α) (v : Option α) :
    ((write env c v).1)._validationChain = c._validationChain := by
  by_cases hrun : (runValidationChain env v c._validationChain).1 = true
  · simp [write, hrun]
  · simp [write, Bool.eq_false_iff.mpr hrun]

/-- C5: `hasChanged` after a write compares the new `current` against the
snapshot taken at the start of that write: it equals
`current !== snapshot`; on an accepted write it is `candidate !== prior`
(so `true` whenever the accepted candidate differs from the prior value),
and on a rejected write it is `false`. -/
theorem C5_hasChanged_semantics {α : Type} [DecidableEq α]
    (env : Nat → Option α → Bool) (c : Cell α) (v : Option α) :
    hasChanged (write env c v).1 =
      decide ((write env c v).1._value ≠ c._value) ∧
    ((runValidationChain env v c._validationChain).1 = true →
      hasChanged (write env c v).1 = decide (v ≠ c._value)) ∧
    ((runValidationChain env v c._validationChain).1 = false →
      hasChanged (write env c v).1 = false) ∧
    ((runValidationChain env v c._validationChain).1 = true → v ≠ c._value →
      hasChanged (write env c v).1 = true) := by
  by_cases hrun : (runValidationChain env v c._validationChain).1 = true
  · have hw : (write env c v).1 = { c with _value := v, _lastValue := c._value } := by
      simp [write, hrun]
    refine ⟨?_, fun _ => ?_, fun hf => ?_, fun _ hne => ?_⟩
    · rw [hw]; rfl
    · rw [hw]; rfl
    · rw [hrun] at hf; exact absurd hf (by simp)
    · rw [hw]; simp [hasChanged, hne]
  · have hrun' : (runValidationChain env v c._validationChain).1 = false :=
      Bool.eq_false_iff.mpr hrun
    have hw : (write env c v).1 = { c with _lastValue := c._value } := by
      simp [write, hrun']
    refine ⟨?_, fun ht => ?_, fun _ => ?_, fun ht _ => ?_⟩
    · rw [hw]; simp [hasChanged]
    · rw [ht] at hrun'; exact absurd hrun' (by simp)
    · rw [hw]; simp [hasChanged]
    · rw [ht] at hrun'; exact absurd hrun' (by simp)

/-- C5 witness: on the cell committed to `123` with validator `v > 100`,
the accepted differing `write(500)` makes `hasChanged()` true, and the
rejected `write(50)` makes `hasChanged()` false. -/
theorem C5_hasChanged_semantics_witness :
    (runValidationChain spyEnv (some 500) c123._validationChain).1 = true ∧
    some 500 ≠ read c123 ∧
    hasChanged (write spyEnv c123 (some 500)).1 = true ∧
    (runValidationChain spyEnv (some 50) c123._validationChain).1 = false ∧
    hasChanged (write spyEnv c123 (some 50)).1 = false :=
  ⟨by decide, by decide,
   (C5_hasChanged_semantics spyEnv c123 (some 500)).2.2.2 (by decide) (by decide),
   by decide,
   (C5_hasChanged_semantics spyEnv c123 (some 50)).2.2.1 (by decide)⟩

/-- C6: `addValidator` and `removeValidator` each throw the InvalidArgument
error synchronously when the argument is not a function, and the cell —
in particular its validator chain — is left unchanged. -/
theorem C6_invalid_argument {α : Type} (c : Cell α) :
    addValidator c JSArg.nonFunc =
      { thrown := some "Invalid argument for addValidator() - Argument 1 MUST be a function",
        cell := c } ∧
    removeValidator c JSArg.nonFunc =
      { thrown := some "Invalid argument for removeValidator() - Argument 1 MUST be a function",
        cell := c } :=
  ⟨rfl, rfl⟩

/-- C7: on a duplicate-free chain every operation preserves
duplicate-freeness, `addValidator` with an already-present function is a
no-op, and adding the same function twice leaves exactly one occurrence. -/
theorem C7_idempotent_registration {α : Type} (c : Cell α) (f : Nat)
    (a : JSArg) (env : Nat → Option α → Bool) (v : Option α)
    (hnodup : c._validationChain.Nodup) :
    ((addValidator c a).cell)._validationChain.Nodup ∧
    ((removeValidator c a).cell)._validationChain.Nodup ∧
    ((write env c v).1)._validationChain.Nodup ∧
    (f ∈ c._validationChain → addValidator c (JSArg.func f) = ⟨none, c⟩) ∧
    ((addValidator (addValidator c (JSArg.func f)).cell
        (JSArg.func f)).cell)._validationChain.count f = 1 := by
  refine ⟨?_, ?_, ?_, ?_, ?_⟩
  · cases a with
    | nonFunc => exact hnodup
    | func g =>
      by_cases hidx : c._validationChain.indexOf g = c._validationChain.length
      · have hg : g ∉ c._validationChain := List.indexOf_eq_length.mp hidx
        simp [addValidator, hidx, List.nodup_append, hnodup, hg]
      · simpa [addValidator, hidx] using hnodup
  · cases a with
    | nonFunc => exact hnodup
    | func g =>
      by_cases hidx : c._validationChain.indexOf g = c._validationChain.length
      · simpa [removeValidator, hidx] using hnodup
      · have hchain : ((removeValidator c (JSArg.func g)).cell)._validationChain =
            c._validationChain.eraseIdx (c._validationChain.indexOf g) := by
          simp only [removeValidator]
          rw [if_pos hidx]
        rw [hchain]
        exact List.Sublist.nodup (List.eraseIdx_sublist _ _) hnodup
  · rw [write_preserves_chain]; exact hnodup
  · intro hf
    have hne : c._validationChain.indexOf f ≠ c._validationChain.length :=
      Nat.ne_of_lt (List.indexOf_lt_length.mpr hf)
    simp [addValidator, hne]
  · by_cases hf : f ∈ c._validationChain
    · have hne : c._validationChain.indexOf f ≠ c._validationChain.length :=
        Nat.ne_of_lt (List.indexOf_lt_length.mpr hf)
      simp [addValidator, hne]
      exact List.count_eq_one_of_mem hnodup hf
    · have hidx : c._validationChain.indexOf f = c._validationChain.length :=
        List.indexOf_eq_length.mpr hf
      have hidx2 : (c._validationChain ++ [f]).indexOf f =
          c._validationChain.length := by
        rw [List.indexOf_append_of_not_mem hf, List.indexOf_cons_self]
        exact Nat.add_zero _
      simp [addValidator, hidx, hidx2, List.count_append,
        List.count_eq_zero_of_not_mem hf]

/-- C7 witness: the chain `[0, 1]` is duplicate-free, stays so under the
operations, re-adding the present validator `0` is a no-op, and after adding
it twice the chain counts it exactly once. -/
theorem C7_idempotent_registration_witness :
    c01cell._validationChain.Nodup ∧
    ((addValidator c01cell (JSArg.func 2)).cell)._validationChain.Nodup ∧
    ((removeValidator c01cell (JSArg.func 2)).cell)._validationChain.Nodup ∧
    ((write spyEnv c01cell (some 5)).1)._validationChain.Nodup ∧
    (0 ∈ c01cell._validationChain →
      addValidator c01cell (JSArg.func 0) = ⟨none, c01cell⟩) ∧
    ((addValidator (addValidator c01cell (JSArg.func 0)).cell
        (JSArg.func 0)).cell)._validationChain.count 0 = 1 :=
  ⟨by decide,
   C7_idempotent_registration c01cell 0 (JSArg.func 2) spyEnv (some 5) (by decide)⟩

/-- C8 counterexample: the claim "addValidator(f); removeValidator(f)
restores the chain for every cell state" fails when `f` is already present:
on a cell whose chain is `[0]`, the add is a no-op and the remove deletes
`0`, leaving the empty chain, not the original state. -/
theorem C8_inverse_counterexample :
    (removeValidator (addValidator c8cell (JSArg.func 0)).cell
      (JSArg.func 0)).cell ≠ c8cell := by
  decide

/-- C8 amended: `addValidator(f); removeValidator(f)` restores the chain
exactly when `f` was not already present; removing a present `f` removes the
single matching entry while preserving the relative order of the remaining
validators; removing an absent `f` is a no-op. -/
theorem C8_add_remove_inverse {α : Type} (c : Cell α) (f : Nat) :
    (f ∉ c._validationChain →
      (removeValidator (addValidator c (JSArg.func f)).cell
        (JSArg.func f)).cell = c) ∧
    (f ∈ c._validationChain →
      ∃ l₁ l₂, f ∉ l₁ ∧ c._validationChain = l₁ ++ f :: l₂ ∧
        ((removeValidator c (JSArg.func f)).cell)._validationChain = l₁ ++ l₂) ∧
    (f ∉ c._validationChain → removeValidator c (JSArg.func f) = ⟨none, c⟩) := by
  refine ⟨?_, ?_, ?_⟩
  · intro hf
    have hidx : c._validationChain.indexOf f = c._validationChain.length :=
      List.indexOf_eq_length.mpr hf
    have hidx2 : (c._validationChain ++ [f]).indexOf f =
        c._validationChain.length := by
      rw [List.indexOf_append_of_not_mem hf, List.indexOf_cons_self]
      exact Nat.add_zero _
    have herase : (c._validationChain ++ [f]).eraseIdx
        c._validationChain.length = c._validationChain := by
      rw [List.eraseIdx_append_of_length_le (Nat.le_refl _)]
      simp
    simp [addValidator, hidx, removeValidator, hidx2, herase]
  · intro hf
    obtain ⟨l₁, l₂, hnl, heq, herase⟩ := List.exists_erase_eq hf
    refine ⟨l₁, l₂, hnl, heq, ?_⟩
    have hne : c._validationChain.indexOf f ≠ c._validationChain.length :=
      Nat.ne_of_lt (List.indexOf_lt_length.mpr hf)
    simp [removeValidator, hne, eraseIdx_indexOf_eq_erase, herase]
  · intro hf
    have hidx : c._validationChain.indexOf f = c._validationChain.length :=
      List.indexOf_eq_length.mpr hf
    simp [removeValidator, hidx]

/-- C8 witness: on a fresh cell (empty chain, `0` absent),
`addValidator(0); removeValidator(0)` restores the original state. -/
theorem C8_add_remove_inverse_witness :
    0 ∉ (validatedObservable Nat 5)._validationChain ∧
    (removeValidator (addValidator (validatedObservable Nat 5) (JSArg.func 0)).cell
      (JSArg.func 0)).cell = validatedObservable Nat 5 :=
  ⟨by decide, (C8_add_remove_inverse (validatedObservable Nat 5) 0).1 (by decide)⟩

/-- C9: at construction both `_value` and `_lastValue` hold undefined (the
construction argument is never stored), so `hasChanged()` is false, and it
stays false under chain mutation, i.e. before the first `write` call. -/
theorem C9_hasChanged_false_before_first_write {α : Type} [DecidableEq α]
    (v : α) (c : Cell α) (a : JSArg) :
    hasChanged (validatedObservable α v) = false ∧
    (validatedObservable α v)._value = none ∧
    (validatedObservable α v)._lastValue = none ∧
    hasChanged (addValidator c a).cell = hasChanged c ∧
    hasChanged (removeValidator c a).cell = hasChanged c := by
  refine ⟨by simp [hasChanged, validatedObservable], rfl, rfl, ?_, ?_⟩
  · have h := addValidator_preserves_values c a
    simp [hasChanged, h.1, h.2]
  · have h := removeValidator_preserves_values c a
    simp [hasChanged, h.1, h.2]

/-- C10: frame property — `write` never modifies the validator chain
(accepted or rejected), and `addValidator` / `removeValidator` never modify
`_value` or `_lastValue`, so chain mutation alone changes neither `read()`
nor `hasChanged()`. -/
theorem C10_frame {α : Type} [DecidableEq α] (env : Nat → Option α → Bool)
    (c : Cell α) (v : Option α) (a : JSArg) :
    ((write env c v).1)._validationChain = c._validationChain ∧
    ((addValidator c a).cell)._value = c._value ∧
    ((addValidator c a).cell)._lastValue = c._lastValue ∧
    ((removeValidator c a).cell)._value = c._value ∧
    ((removeValidator c a).cell)._lastValue = c._lastValue ∧
    read (addValidator c a).cell = read c ∧
    read (removeValidator c a).cell = read c ∧
    hasChanged (addValidator c a).cell = hasChanged c ∧
    hasChanged (removeValidator c a).cell = hasChanged c := by
  have ha := addValidator_preserves_values c a
  have hr := removeValidator_preserves_values c a
  refine ⟨write_preserves_chain env c v, ha.1, ha.2, hr.1, hr.2, ?_, ?_, ?_, ?_⟩
  · simp [read, ha.1]
  · simp [read, hr.1]
  · simp [hasChanged, ha.1, ha.2]
  · simp [hasChanged, hr.1, hr.2]

end KoValidated
